import Mathlib

/-!
# Verification of the CDMS catalog client (`astroquery/cdms/core.py`)

Shallow embedding of the CDMS query-payload builder (`query_lines_async`),
the HTML frame locator, the fixed-width catalog record parser
(`_parse_result`) and the species-table post-processor
(`get_species_table`).  External collaborators (the HTTP transport,
BeautifulSoup frame enumeration, astropy unit conversion) enter as
explicit inputs; machine floats are modelled as exact rationals, with a
separate `nan` marker where the code produces `np.nan`.
-/

namespace CDMS

/-- Python `\s` / `str.isspace` whitespace characters (no line breaks occur
inside a single line). -/
def isWS (c : Char) : Bool :=
  c = ' ' || c = '\t' || c = '\n' || c = '\r' || c = '\x0b' || c = '\x0c'

/-- ASCII decimal digit test (Python `\d` on ASCII input). -/
def isDigitChar (c : Char) : Bool :=
  '0' ≤ c && c ≤ '9'

/-- Numeric value of a digit character. -/
def digitVal (c : Char) : Nat := c.toNat - '0'.toNat

/-- Value of a digit string read most-significant first. -/
def natOfDigits (l : List Char) : Nat :=
  l.foldl (fun a c => a * 10 + digitVal c) 0

/-- Strip leading whitespace from a character list. -/
def lstripChars (l : List Char) : List Char := l.dropWhile isWS

/-- Strip leading and trailing whitespace (Python `str.strip`). -/
def stripChars (l : List Char) : List Char :=
  ((l.dropWhile isWS).reverse.dropWhile isWS).reverse

/-- Python `needle in haystack` substring containment. -/
def containsSub (needle hay : String) : Bool :=
  hay.toList.tails.any (fun t => needle.toList.isPrefixOf t)

/-- Python `float()` of a catalog field, modelled exactly over ℚ.
Modelled from the spec: the builtin numeric coercion is external to the
repository; per the spec the numeric fields are plain signed decimal
strings (format `F13.4` etc.), parsed after stripping whitespace.
`none` models the `ValueError` raised on a malformed field. -/
def parseUnsignedFloat? (l : List Char) : Option ℚ :=
  let intPart := l.takeWhile isDigitChar
  let rest := l.dropWhile isDigitChar
  match rest with
  | [] => if intPart.isEmpty then none else some (natOfDigits intPart)
  | '.' :: frac =>
      if frac.all isDigitChar && !(intPart.isEmpty && frac.isEmpty) then
        some ((natOfDigits intPart : ℚ) + (natOfDigits frac : ℚ) / (10 ^ frac.length))
      else none
  | _ => none

/-- Signed decimal parse (Python `float(s)` on plain decimals). -/
def parseFloatChars? : List Char → Option ℚ
  | '-' :: rest => (parseUnsignedFloat? rest).map Neg.neg
  | '+' :: rest => parseUnsignedFloat? rest
  | l => parseUnsignedFloat? l

/-- `float()` applied to a whitespace-padded field. -/
def parseFloat? (s : String) : Option ℚ :=
  parseFloatChars? (stripChars s.toList)

/-- Python `int()` of a catalog field: optional sign, then digits.
Modelled from the spec: the builtin integer coercion is external to the
repository; `none` models the `ValueError` on a malformed field. -/
def parseIntChars? : List Char → Option ℤ
  | '-' :: rest =>
      if !rest.isEmpty && rest.all isDigitChar then some (-(natOfDigits rest : ℤ)) else none
  | '+' :: rest =>
      if !rest.isEmpty && rest.all isDigitChar then some (natOfDigits rest : ℤ) else none
  | l => if !l.isEmpty && l.all isDigitChar then some (natOfDigits l : ℤ) else none

/-- `int()` applied to a whitespace-padded field. -/
def parseInt? (s : String) : Option ℤ :=
  parseIntChars? (stripChars s.toList)

/-! ## Comment-line filter

`_parse_result` hands astropy the comment pattern
`r'THIS|^\s{12,14}\d{4,6}.*'`, applied with `re.match` (anchored at the
start of each line).  The second alternative matches, for some
`k ∈ {12, 13, 14}`, `k` whitespace characters followed by at least four
digits (the trailing `.*` absorbs any further digits that `\d{4,6}`
leaves behind). -/

/-- One backtracking attempt of `\s{12,14}\d{4,6}.*` with the whitespace
repetition fixed at `k`: the first `k` characters exist and are
whitespace, and at least four digit characters follow. -/
def headerTryK (l : List Char) (k : Nat) : Bool :=
  (l.take k).length = k && (l.take k).all isWS
    && ((l.drop k).take 4).length = 4 && ((l.drop k).take 4).all isDigitChar

/-- `re.match(r'^\s{12,14}\d{4,6}.*', line)`: greedy repetition tries
14, 13, then 12 whitespace characters. -/
def headerMatch (l : List Char) : Bool :=
  headerTryK l 14 || headerTryK l 13 || headerTryK l 12

/-- The comment filter of `_parse_result`:
`re.match(r'THIS|^\s{12,14}\d{4,6}.*', line)` succeeds.  The first
alternative matches anchored, i.e. the line starts with `THIS`. -/
def isComment (line : String) : Bool :=
  "THIS".toList.isPrefixOf line.toList || headerMatch line.toList

/-- A line consisting only of whitespace (astropy drops blank lines
before applying the comment filter). -/
def isBlank (line : String) : Bool := line.toList.all isWS

/-- Length of the maximal digit run starting at position `k`. -/
def digitRun (l : List Char) (k : Nat) : Nat :=
  ((l.drop k).takeWhile isDigitChar).length

/-! ## Fixed-width record parser

`_parse_result` reads the `<pre>` text with
`ascii.read(text, header_start=None, data_start=0, comment=...,
names=list(starts.keys()), col_starts=list(starts.values()),
format='fixed_width', fast_reader=False)`.
Modelled from the spec: astropy's fixed-width reader is external to the
repository; per the spec each field is "sliced from its start offset to
the next field's start offset (last field runs to end of line)", the
slice is stripped of surrounding whitespace, and coerced to the field's
declared type. -/

/-- The column-offset schema of `_parse_result` (`starts` dict, in
insertion order). -/
def starts : List (String × Nat) :=
  [("FREQ", 0), ("ERR", 14), ("LGINT", 25), ("DR", 36), ("ELO", 38),
   ("GUP", 48), ("TAG", 51), ("QNFMT", 57), ("Ju", 61), ("Ku", 63),
   ("vu", 65), ("Jl", 67), ("Kl", 69), ("vl", 71), ("F", 73),
   ("name", 89)]

/-- Declared field type of a catalog column. -/
inductive FType
  | float
  | int
  | str
  deriving DecidableEq, Repr

/-- Declared types of the catalog columns, from the card-image format in
the `_parse_result` docstring
(`F13.4, F8.4, F8.4, I2, F10.4, I3, I7, I4, 6I2, 6I2`, then the
hyperfine block and the name). -/
def ftypes : List (String × FType) :=
  [("FREQ", .float), ("ERR", .float), ("LGINT", .float), ("DR", .int),
   ("ELO", .float), ("GUP", .int), ("TAG", .int), ("QNFMT", .int),
   ("Ju", .int), ("Ku", .int), ("vu", .int), ("Jl", .int), ("Kl", .int),
   ("vl", .int), ("F", .int), ("name", .str)]

/-- A parsed field value; `Option` models the per-field parse failure on
a malformed numeric field. -/
inductive FieldVal
  | f (q : Option ℚ)
  | i (z : Option ℤ)
  | s (str : String)
  deriving DecidableEq, Repr

/-- Coerce one sliced field to its declared type. -/
def coerce : FType → String → FieldVal
  | .float, v => .f (parseFloat? v)
  | .int, v => .i (parseInt? v)
  | .str, v => .s v

/-- Generic next-offset slicing: each field is cut from its start offset
to the following field's start offset, the last field runs to the end of
the line; every slice is stripped of surrounding whitespace. -/
def extractFields : List (String × Nat) → List Char → List (String × String)
  | [], _ => []
  | [(n, a)], l => [(n, String.mk (stripChars (l.drop a)))]
  | (n, a) :: (m, b) :: rest, l =>
      (n, String.mk (stripChars ((l.drop a).take (b - a)))) :: extractFields ((m, b) :: rest) l

/-- Type of a column name under the declared schema. -/
def typeOf (n : String) : FType :=
  ((ftypes.lookup n).getD .str)

/-- One decoded line: slice every column by the offset schema, then
coerce each slice to its declared type. -/
def parseRecord (line : String) : List (String × FieldVal) :=
  (extractFields starts line.toList).map (fun p => (p.1, coerce (typeOf p.1) p.2))

/-- One decoded catalog line with its fields named, as enumerated in the
claim: fixed character ranges `[start, next start)` per field, the last
field (`name`) running to end of line. -/
structure CatalogRecord where
  FREQ : Option ℚ
  ERR : Option ℚ
  LGINT : Option ℚ
  DR : Option ℤ
  ELO : Option ℚ
  GUP : Option ℤ
  TAG : Option ℤ
  QNFMT : Option ℤ
  Ju : Option ℤ
  Ku : Option ℤ
  vu : Option ℤ
  Jl : Option ℤ
  Kl : Option ℤ
  vl : Option ℤ
  F : Option ℤ
  name : String
  deriving DecidableEq, Repr

/-- Strip-and-slice a character range `[a, b)` of a line. -/
def sliceStr (l : List Char) (a b : Nat) : String :=
  String.mk (stripChars ((l.drop a).take (b - a)))

/-- Explicit per-field decoding of one line, with each field's character
range and declared coercion written out. -/
def parse_line (line : String) : CatalogRecord :=
  let l := line.toList
  { FREQ := parseFloat? (sliceStr l 0 14)
    ERR := parseFloat? (sliceStr l 14 25)
    LGINT := parseFloat? (sliceStr l 25 36)
    DR := parseInt? (sliceStr l 36 38)
    ELO := parseFloat? (sliceStr l 38 48)
    GUP := parseInt? (sliceStr l 48 51)
    TAG := parseInt? (sliceStr l 51 57)
    QNFMT := parseInt? (sliceStr l 57 61)
    Ju := parseInt? (sliceStr l 61 63)
    Ku := parseInt? (sliceStr l 63 65)
    vu := parseInt? (sliceStr l 65 67)
    Jl := parseInt? (sliceStr l 67 69)
    Kl := parseInt? (sliceStr l 69 71)
    vl := parseInt? (sliceStr l 71 73)
    F := parseInt? (sliceStr l 73 89)
    name := String.mk (stripChars (l.drop 89)) }

/-- The named fields of a `CatalogRecord`, in schema order. -/
def CatalogRecord.toFields (r : CatalogRecord) : List (String × FieldVal) :=
  [("FREQ", .f r.FREQ), ("ERR", .f r.ERR), ("LGINT", .f r.LGINT),
   ("DR", .i r.DR), ("ELO", .f r.ELO), ("GUP", .i r.GUP),
   ("TAG", .i r.TAG), ("QNFMT", .i r.QNFMT), ("Ju", .i r.Ju),
   ("Ku", .i r.Ku), ("vu", .i r.vu), ("Jl", .i r.Jl), ("Kl", .i r.Kl),
   ("vl", .i r.vl), ("F", .i r.F), ("name", .s r.name)]

/-- Lines of the raw text block. -/
def splitLines (text : String) : List String := text.splitOn "\n"

/-- The data lines: non-blank lines not matched by the comment filter. -/
def dataLines (text : String) : List String :=
  (splitLines text).filter (fun l => !isBlank l && !isComment l)

/-- The record list decoded from a raw catalog text block: one record
per non-comment, non-empty line. -/
def parse_table (text : String) : List CatalogRecord :=
  (dataLines text).map parse_line

/-! ## Table model and unit/temperature post-processing -/

/-- A named, optionally unit-annotated column of parsed values. -/
structure Column where
  name : String
  unit : Option String
  vals : List FieldVal
  deriving DecidableEq, Repr

/-- An ordered collection of columns. -/
structure Table where
  cols : List Column
  deriving DecidableEq, Repr

/-- `result[n].unit = u`: annotate the column named `n`. -/
def Table.setUnit (t : Table) (n u : String) : Table :=
  ⟨t.cols.map (fun c => if c.name = n then { c with unit := some u } else c)⟩

/-- `result.rename_column(old, new)`: relabel without touching values. -/
def Table.renameColumn (t : Table) (old new : String) : Table :=
  ⟨t.cols.map (fun c => if c.name = old then { c with name := new } else c)⟩

/-- The column headed `n`, if present. -/
def Table.find (t : Table) (n : String) : Option Column :=
  t.cols.find? (fun c => c.name = n)

/-- The unit/temperature post-processing of `_parse_result`
(lines 230–241 of `core.py`): fixed units on FREQ/ERR/ELO, and the
intensity column renamed to `LGAIJ` with unit `1 / s` exactly when the
captured query temperature is zero, else kept as `LGINT` with unit
`nm2 MHz`. -/
def postProcess (temp : ℚ) (t : Table) : Table :=
  let t1 := (t.setUnit "FREQ" "MHz").setUnit "ERR" "MHz"
  let t2 :=
    if temp = 0 then
      (t1.renameColumn "LGINT" "LGAIJ").setUnit "LGAIJ" "1 / s"
    else
      t1.setUnit "LGINT" "nm2 MHz"
  t2.setUnit "ELO" "1 / cm"

/-- Columns of the parsed fixed-width table, one per schema field. -/
def tableOf (rs : List CatalogRecord) : Table :=
  ⟨[⟨"FREQ", none, rs.map (fun r => .f r.FREQ)⟩,
    ⟨"ERR", none, rs.map (fun r => .f r.ERR)⟩,
    ⟨"LGINT", none, rs.map (fun r => .f r.LGINT)⟩,
    ⟨"DR", none, rs.map (fun r => .i r.DR)⟩,
    ⟨"ELO", none, rs.map (fun r => .f r.ELO)⟩,
    ⟨"GUP", none, rs.map (fun r => .i r.GUP)⟩,
    ⟨"TAG", none, rs.map (fun r => .i r.TAG)⟩,
    ⟨"QNFMT", none, rs.map (fun r => .i r.QNFMT)⟩,
    ⟨"Ju", none, rs.map (fun r => .i r.Ju)⟩,
    ⟨"Ku", none, rs.map (fun r => .i r.Ku)⟩,
    ⟨"vu", none, rs.map (fun r => .i r.vu)⟩,
    ⟨"Jl", none, rs.map (fun r => .i r.Jl)⟩,
    ⟨"Kl", none, rs.map (fun r => .i r.Kl)⟩,
    ⟨"vl", none, rs.map (fun r => .i r.vl)⟩,
    ⟨"F", none, rs.map (fun r => .i r.F)⟩,
    ⟨"name", none, rs.map (fun r => .s r.name)⟩]⟩

/-! ## The client instance and `_parse_result` -/

/-- Python exception classes raised along these code paths. -/
inductive PyError
  | valueError (msg : String)
  | indexError
  | attributeError
  deriving DecidableEq, Repr

/-- Per-instance state of `CDMSClass`: the `_last_query_temperature`
attribute, absent (`none`) until the first `query_lines_async` call sets
it. -/
structure CDMSState where
  last_query_temperature : Option ℚ
  deriving DecidableEq, Repr

/-- The empty-result marker checked before any parsing. -/
def zeroLinesMsg : String := "Zero lines were found"

/-- `_parse_result(response)`.  `extractPre` stands for the external
BeautifulSoup step `soup.find('pre').text` that cuts the fixed-width
block out of the response body; the function is quantified over it in
the theorems.  The body text is checked for the empty-result marker
first; then the fixed-width block is parsed and post-processed using the
instance's captured query temperature (reading the attribute before it
was ever set raises `AttributeError`). -/
def _parse_result (extractPre : String → String) (st : CDMSState)
    (respText : String) : Except PyError Table :=
  if containsSub zeroLinesMsg respText then
    .error (.valueError ("Response was empty; message was '" ++ respText ++ "'."))
  else
    match st.last_query_temperature with
    | none => .error .attributeError
    | some temp => .ok (postProcess temp (tableOf (parse_table (extractPre respText))))

/-! ## Query payload construction (`query_lines_async`) -/

/-- A form-payload value. -/
inductive PVal
  | num (q : ℚ)
  | str (s : String)
  deriving DecidableEq, Repr

/-- Arguments of `query_lines_async`.  The frequency bounds carry the
GHz value obtained from the external astropy conversion
`.to(u.GHz, u.spectral())`, or `none` for Python `None`. -/
structure QueryArgs where
  min_frequency : Option ℚ
  max_frequency : Option ℚ
  min_strength : ℚ := -500
  molecule : Option String := some "All"
  temperature_for_intensity : ℚ := 300
  parse_name_locally : Bool := false
  get_query_payload : Bool := false
  deriving DecidableEq, Repr

/-- Outcome of `query_lines_async` up to the POST: either the payload is
returned to the caller (`get_query_payload=True`) or the POST request is
issued with it. -/
inductive QueryOutcome
  | payload (p : List (String × PVal))
  | post (p : List (String × PVal))
  deriving DecidableEq, Repr

/-- `f"{val:06d}"` for a species tag: decimal digits zero-padded to
width six. -/
def formatTag (v : Nat) : String :=
  let s := toString v
  String.mk (List.replicate (6 - s.length) '0') ++ s

/-- The frequency entries of the payload: absent unless both bounds are
given; swapped when the converted minimum exceeds the converted
maximum. -/
def freqPayload (minf maxf : Option ℚ) : List (String × PVal) :=
  match minf, maxf with
  | some minf, some maxf =>
      if maxf < minf then [("MinNu", .num maxf), ("MaxNu", .num minf)]
      else [("MinNu", .num minf), ("MaxNu", .num maxf)]
  | _, _ => []

/-- The payload before the molecule selector: the frequency entries
followed by the fixed form entries, in insertion order. -/
def basePayload (a : QueryArgs) : List (String × PVal) :=
  freqPayload a.min_frequency a.max_frequency ++
    [("UnitNu", .str "GHz"), ("StrLim", .num a.min_strength),
     ("temp", .num a.temperature_for_intensity), ("logscale", .str "yes"),
     ("mol_sort_query", .str "tag"), ("sort", .str "frequency"),
     ("output", .str "text"), ("but_action", .str "Submit")]

/-- `query_lines_async` up to the POST request.  `luts` stands for the
match dictionary returned by the external molecule-name lookup
`self.lookup_ids.find(molecule, flags)` (name, tag) in insertion order;
it is only consulted when `parse_name_locally` is set.  Returns the
updated instance state together with the outcome or the Python exception
raised. -/
def query_lines_async (st : CDMSState) (a : QueryArgs)
    (luts : List (String × Nat)) :
    CDMSState × Except PyError QueryOutcome :=
  let payload : List (String × PVal) := basePayload a
  let st' : CDMSState := { st with last_query_temperature := some a.temperature_for_intensity }
  let finish : List (String × PVal) → CDMSState × Except PyError QueryOutcome :=
    fun p =>
      if a.get_query_payload then (st', .ok (.payload p)) else (st', .ok (.post p))
  match a.molecule with
  | none => finish payload
  | some mol =>
      if a.parse_name_locally then
        match luts with
        | [] => (st', .error .indexError)
        | (key, val) :: _ =>
            let payload2 := payload ++ [("Molecules", .str (formatTag val ++ " " ++ key))]
            if mol.length = 0 then
              (st', .error (.valueError "No matching species found."))
            else finish payload2
      else finish (payload ++ [("Molecules", .str mol)])

/-! ## HTML table locator (second stage of `query_lines_async`) -/

/-- The frame-selection test: the `src` URL contains `'tab'` and does
not contain `'head'`. -/
def frameOk (url : String) : Bool :=
  containsSub "tab" url && !containsSub "head" url

/-- The frame-scanning loop over the `src` URLs of the response's frame
elements: first match wins, no match raises `ValueError`. -/
def resolveTableFrame (urls : List String) : Except PyError String :=
  match urls.find? frameOk with
  | some url => .ok url
  | none => .error (.valueError "Did not find table in response")

/-- Locate the data frame and form the URL of the follow-up GET request;
on `ValueError` no follow-up request is issued. -/
def stage2 (baseurl : String) (urls : List String) : Except PyError String :=
  (resolveTableFrame urls).map (fun url => baseurl ++ "/" ++ url)

/-! ## Species table (`get_species_table`) -/

/-- A partition-function entry: a parsed value or the `np.nan` a failed
`float()` is replaced with. -/
inductive PFloat
  | nan
  | val (q : ℚ)
  deriving DecidableEq, Repr

/-- `tryfloat` of `get_species_table`: `float(x)`, with the
`ValueError` on a malformed entry caught and replaced by `np.nan`. -/
def tryfloat (x : String) : PFloat :=
  match parseFloat? x with
  | some q => .val q
  | none => .nan

/-- The eleven `lg(Q)` column labels of `catdir.cat` (the keys of the
`meta` dict, in order). -/
def lgQKeys : List String :=
  ["lg(Q(1000))", "lg(Q(500))", "lg(Q(300))", "lg(Q(225))", "lg(Q(150))",
   "lg(Q(75))", "lg(Q(37.5))", "lg(Q(18.75))", "lg(Q(9.375))",
   "lg(Q(5.000))", "lg(Q(2.725))"]

/-- A species-table column after post-processing: either the raw CSV
strings (tag, molecule, line count) or the numeric partition-function
values. -/
inductive SpecCol
  | raw (vs : List String)
  | num (vs : List PFloat)
  deriving DecidableEq, Repr

/-- The `for key in meta` loop of `get_species_table`: every `lg(Q)`
column is rewritten entry-wise through `tryfloat`; other columns are
left as read. -/
def get_species_table (cols : List (String × List String)) :
    List (String × SpecCol) :=
  cols.map (fun c =>
    if c.1 ∈ lgQKeys then (c.1, .num (c.2.map tryfloat)) else (c.1, .raw c.2))

/-! ## Theorems -/

/-- C1: `_parse_result` decodes one record per non-comment, non-empty
line of the raw catalog text (first conjunct), and each field of a
decoded record is the slice of the line from its declared offset to the
next field's declared offset — the last field `name` running to end of
line — coerced to its declared type: FREQ/ERR/LGINT/ELO floating point,
DR/GUP/TAG/QNFMT and the quantum-number fields Ju/Ku/vu/Jl/Kl/vl/F
integers, name string (second conjunct, equating the generic next-offset
extraction over the `starts`/`ftypes` schemas with the explicit
per-field ranges and coercions of `parse_line`). -/
theorem c1_fixed_width_parse (text : String) :
    parse_table text = (dataLines text).map parse_line ∧
    ∀ line : String, (parse_line line).toFields = parseRecord line := by
  refine ⟨rfl, fun line => ?_⟩
  rfl

/-- C3: a response body containing the literal string
"Zero lines were found" makes `_parse_result` raise `ValueError` before
any parsing is attempted (the result is the error for every possible
`<pre>`-extraction and instance state, so no table is returned). -/
theorem c3_zero_lines_error (extractPre : String → String) (st : CDMSState)
    (resp : String) (h : containsSub zeroLinesMsg resp = true) :
    _parse_result extractPre st resp
      = .error (.valueError ("Response was empty; message was '" ++ resp ++ "'.")) := by
  simp [_parse_result, h]

/-- Witness for C3 at the concrete response body
"... Zero lines were found ...". -/
theorem c3_zero_lines_error_witness :
    _parse_result id ⟨none⟩ "Zero lines were found"
      = .error (.valueError
          ("Response was empty; message was '" ++ "Zero lines were found" ++ "'.")) :=
  c3_zero_lines_error id ⟨none⟩ "Zero lines were found" rfl

/-- C7 (code bug): with `parse_name_locally=True` and a molecule regex
the lookup matches nowhere (empty match dictionary), `query_lines_async`
raises `IndexError` — from indexing the empty tuple of matches — not the
intended `ValueError` validation error (whose guard tests
`len(molecule) == 0`, the length of the regex string, and sits after the
indexing). -/
theorem c7_empty_lookup_indexerror :
    (query_lines_async ⟨none⟩
        { min_frequency := none, max_frequency := none,
          molecule := some "notamolecule", parse_name_locally := true } []).2
      = .error .indexError := rfl

/-- `find?` returns the first element satisfying the predicate: the list
splits around the result, with every earlier element failing the test. -/
theorem find?_first_characterization {α : Type} (p : α → Bool) :
    ∀ (l : List α) (u : α), l.find? p = some u →
      p u = true ∧ ∃ pre post, l = pre ++ u :: post ∧ ∀ v ∈ pre, p v = false := by
  intro l
  induction l with
  | nil => intro u h; simp at h
  | cons a as ih =>
    intro u h
    by_cases ha : p a = true
    · rw [List.find?_cons_of_pos _ ha] at h
      obtain rfl : a = u := by injection h
      exact ⟨ha, [], as, rfl, by simp⟩
    · rw [List.find?_cons_of_neg _ ha] at h
      obtain ⟨hu, pre, post, rfl, hpre⟩ := ih u h
      refine ⟨hu, a :: pre, post, rfl, ?_⟩
      intro v hv
      rcases List.mem_cons.mp hv with rfl | hv
      · simpa using ha
      · exact hpre v hv

/-- C5: the table locator selects the first frame URL containing `'tab'`
and not containing `'head'`; when no frame URL matches, `ValueError` is
raised and no follow-up request URL is produced. -/
theorem c5_frame_locator (baseurl : String) (urls : List String) :
    ((∀ u ∈ urls, frameOk u = false) →
        stage2 baseurl urls = .error (.valueError "Did not find table in response")) ∧
    ∀ u, resolveTableFrame urls = .ok u →
      containsSub "tab" u = true ∧ containsSub "head" u = false ∧
      ∃ pre post, urls = pre ++ u :: post ∧ ∀ v ∈ pre, frameOk v = false := by
  constructor
  · intro h
    have hnone : urls.find? frameOk = none :=
      List.find?_eq_none.mpr (fun x hx => by simp [h x hx])
    simp [stage2, resolveTableFrame, hnone, Except.map]
  · intro u hu
    have h2 : urls.find? frameOk = some u := by
      rcases hfind : urls.find? frameOk with _ | v
      · simp [resolveTableFrame, hfind] at hu
      · simp [resolveTableFrame, hfind] at hu
        rw [hu]
    obtain ⟨hok, pre, post, heq, hpre⟩ := find?_first_characterization frameOk urls u h2
    simp only [frameOk, Bool.and_eq_true, Bool.not_eq_true'] at hok
    exact ⟨hok.1, hok.2, pre, post, heq, hpre⟩

/-- Witness for C5: a header-only frame list raises the error, and in a
list where the first URL has both markers the second, `tab`-only URL is
selected. -/
theorem c5_frame_locator_witness :
    stage2 "base" ["results_head.html"]
        = .error (.valueError "Did not find table in response") ∧
    (containsSub "tab" "b/tab1.html" = true ∧ containsSub "head" "b/tab1.html" = false ∧
      ∃ pre post, ["a/headtab.html", "b/tab1.html"] = pre ++ "b/tab1.html" :: post ∧
        ∀ v ∈ pre, frameOk v = false) := by
  constructor
  · exact (c5_frame_locator "base" ["results_head.html"]).1 (by decide)
  · exact (c5_frame_locator "base" ["a/headtab.html", "b/tab1.html"]).2 "b/tab1.html" rfl

/-- `n` characters of the maximal `p`-run exist exactly when the first
`n` characters exist and all satisfy `p`. -/
theorem le_length_takeWhile_iff (p : Char → Bool) (l : List Char) (n : Nat) :
    n ≤ (l.takeWhile p).length ↔
      ((l.take n).length = n ∧ (l.take n).all p = true) := by
  induction l generalizing n with
  | nil =>
    simp only [List.takeWhile, List.length_nil, Nat.le_zero, List.take_nil, List.all_nil,
      and_true]
    omega
  | cons c cs ih =>
    cases n with
    | zero => simp
    | succ n =>
      by_cases hc : p c = true
      · simp [List.takeWhile, hc, List.take_succ_cons, Nat.succ_le_succ_iff, ih]
      · simp [List.takeWhile, hc]

/-- The comment pattern as the claim words it: lines starting with
`THIS`, and lines beginning with 12 to 14 whitespace characters followed
by a number of four to six digits. -/
def claimComment (line : String) : Prop :=
  "THIS".toList.isPrefixOf line.toList = true ∨
    ∃ k, (k = 12 ∨ k = 13 ∨ k = 14) ∧ (line.toList.take k).length = k ∧
      (line.toList.take k).all isWS = true ∧
      4 ≤ digitRun line.toList k ∧ digitRun line.toList k ≤ 6

/-- C6 counterexample: a line of 12 spaces followed by the seven-digit
number `1234567` is excluded by the code's comment filter, although it
does not match the claim's patterns (no 4-to-6-digit number follows the
whitespace). -/
theorem c6_comment_filter_counterexample :
    isComment "            1234567" = true ∧ ¬ claimComment "            1234567" := by
  constructor
  · rfl
  · rintro (hT | ⟨k, (rfl | rfl | rfl), h⟩)
    · exact absurd hT (by decide)
    · revert h
      decide
    · revert h
      decide
    · revert h
      decide

/-- C6 (amended): the comment filter excludes exactly the lines starting
with `THIS` and the lines beginning with 12 to 14 whitespace characters
followed immediately by at least four digits (the regex's trailing `.*`
absorbs any digits beyond the six matched by `\d{4,6}`); every other
line is kept as a data line. -/
theorem c6_comment_filter (line : String) :
    isComment line = true ↔
      ("THIS".toList.isPrefixOf line.toList = true ∨
        ∃ k, 12 ≤ k ∧ k ≤ 14 ∧ (line.toList.take k).length = k ∧
          (line.toList.take k).all isWS = true ∧ 4 ≤ digitRun line.toList k) := by
  have h4 : ∀ (l : List Char) (k : Nat),
      4 ≤ digitRun l k ↔
        (((l.drop k).take 4).length = 4 ∧ ((l.drop k).take 4).all isDigitChar = true) :=
    fun l k => le_length_takeWhile_iff isDigitChar (l.drop k) 4
  simp only [isComment, headerMatch, headerTryK, Bool.or_eq_true, Bool.and_eq_true,
    decide_eq_true_eq]
  constructor
  · rintro (hT | ((h14 | h13) | h12))
    · exact Or.inl hT
    · exact Or.inr ⟨14, by omega, by omega, h14.1.1.1, h14.1.1.2,
        (h4 _ _).mpr ⟨h14.1.2, h14.2⟩⟩
    · exact Or.inr ⟨13, by omega, by omega, h13.1.1.1, h13.1.1.2,
        (h4 _ _).mpr ⟨h13.1.2, h13.2⟩⟩
    · exact Or.inr ⟨12, by omega, by omega, h12.1.1.1, h12.1.1.2,
        (h4 _ _).mpr ⟨h12.1.2, h12.2⟩⟩
  · rintro (hT | ⟨k, hk1, hk2, hlen, hall, hrun⟩)
    · exact Or.inl hT
    · have hd := (h4 line.toList k).mp hrun
      interval_cases k
      · exact Or.inr (Or.inr ⟨⟨⟨hlen, hall⟩, hd.1⟩, hd.2⟩)
      · exact Or.inr (Or.inl (Or.inr ⟨⟨⟨hlen, hall⟩, hd.1⟩, hd.2⟩))
      · exact Or.inr (Or.inl (Or.inl ⟨⟨⟨hlen, hall⟩, hd.1⟩, hd.2⟩))

/-- Pointwise effect of the post-processing at temperature 0. -/
def ppZero (c : Column) : Column :=
  if c.name = "FREQ" then { c with unit := some "MHz" }
  else if c.name = "ERR" then { c with unit := some "MHz" }
  else if c.name = "LGINT" then { name := "LGAIJ", unit := some "1 / s", vals := c.vals }
  else if c.name = "LGAIJ" then { c with unit := some "1 / s" }
  else if c.name = "ELO" then { c with unit := some "1 / cm" }
  else c

/-- Pointwise effect of the post-processing at nonzero temperature. -/
def ppNonzero (c : Column) : Column :=
  if c.name = "FREQ" then { c with unit := some "MHz" }
  else if c.name = "ERR" then { c with unit := some "MHz" }
  else if c.name = "LGINT" then { c with unit := some "nm2 MHz" }
  else if c.name = "ELO" then { c with unit := some "1 / cm" }
  else c

/-- The post-processing at temperature 0 acts column-wise as `ppZero`. -/
theorem postProcess_zero_cols (cols : List Column) :
    (postProcess 0 ⟨cols⟩).cols = cols.map ppZero := by
  simp only [postProcess, Table.setUnit, Table.renameColumn, List.map_map, if_pos,
    eq_self_iff_true, if_true]
  refine List.map_congr_left (fun c _ => ?_)
  simp only [Function.comp, ppZero]
  by_cases h1 : c.name = "FREQ" <;> by_cases h2 : c.name = "ERR" <;>
    by_cases h3 : c.name = "LGINT" <;> by_cases h4 : c.name = "LGAIJ" <;>
    by_cases h5 : c.name = "ELO" <;> simp_all

/-- The post-processing at nonzero temperature acts column-wise as
`ppNonzero`. -/
theorem postProcess_nonzero_cols (temp : ℚ) (h : temp ≠ 0) (cols : List Column) :
    (postProcess temp ⟨cols⟩).cols = cols.map ppNonzero := by
  simp only [postProcess, Table.setUnit, Table.renameColumn, List.map_map, if_neg h]
  refine List.map_congr_left (fun c _ => ?_)
  simp only [Function.comp, ppNonzero]
  by_cases h1 : c.name = "FREQ" <;> by_cases h2 : c.name = "ERR" <;>
    by_cases h3 : c.name = "LGINT" <;> by_cases h5 : c.name = "ELO" <;> simp_all

/-- C2: the unit/temperature post-processing is a pure relabeling — the
values of every column are unchanged in both branches — and it renames
the intensity column `LGINT` to `LGAIJ` with unit `1 / s` exactly when
the reference temperature captured at query-construction time is 0; for
any nonzero captured temperature every column keeps its label and
`LGINT` gets units `nm2 MHz`. -/
theorem c2_intensity_relabel (temp : ℚ) (t : Table) :
    ((postProcess temp t).cols.map Column.vals = t.cols.map Column.vals) ∧
    (temp = 0 →
      (postProcess temp t).cols.map Column.name
          = t.cols.map (fun c => if c.name = "LGINT" then "LGAIJ" else c.name) ∧
      ∀ c ∈ (postProcess temp t).cols, c.name = "LGAIJ" → c.unit = some "1 / s") ∧
    (temp ≠ 0 →
      (postProcess temp t).cols.map Column.name = t.cols.map Column.name ∧
      ∀ c ∈ (postProcess temp t).cols, c.name = "LGINT" → c.unit = some "nm2 MHz") := by
  obtain ⟨cols⟩ := t
  by_cases htemp : temp = 0
  · subst htemp
    refine ⟨?_, fun _ => ⟨?_, ?_⟩, fun h => absurd rfl h⟩
    · rw [postProcess_zero_cols, List.map_map]
      refine List.map_congr_left (fun c _ => ?_)
      simp only [Function.comp, ppZero]
      split_ifs <;> rfl
    · rw [postProcess_zero_cols, List.map_map]
      refine List.map_congr_left (fun c _ => ?_)
      simp only [Function.comp, ppZero]
      split_ifs <;> simp_all
    · rw [postProcess_zero_cols]
      intro c hc
      obtain ⟨c0, _, rfl⟩ := List.mem_map.mp hc
      simp only [ppZero]
      split_ifs <;> simp_all
  · refine ⟨?_, fun h => absurd h htemp, fun _ => ⟨?_, ?_⟩⟩
    · rw [postProcess_nonzero_cols temp htemp, List.map_map]
      refine List.map_congr_left (fun c _ => ?_)
      simp only [Function.comp, ppNonzero]
      split_ifs <;> rfl
    · rw [postProcess_nonzero_cols temp htemp, List.map_map]
      refine List.map_congr_left (fun c _ => ?_)
      simp only [Function.comp, ppNonzero]
      split_ifs <;> simp_all
    · rw [postProcess_nonzero_cols temp htemp]
      intro c hc
      obtain ⟨c0, _, rfl⟩ := List.mem_map.mp hc
      simp only [ppNonzero]
      split_ifs <;> simp_all

/-- Witness for C2 on a one-column table holding the intensity column:
at temperature 0 it is relabeled `LGAIJ` with unit `1 / s`, at
temperature 300 it keeps `LGINT` with units `nm2 MHz`; values unchanged
in both cases. -/
theorem c2_intensity_relabel_witness :
    ((postProcess 0 (Table.mk [Column.mk "LGINT" none [.f (some 1)]])).cols.map Column.name
        = [Column.mk "LGINT" none [.f (some 1)]].map
            (fun c => if c.name = "LGINT" then "LGAIJ" else c.name) ∧
      ∀ c ∈ (postProcess 0 (Table.mk [Column.mk "LGINT" none [.f (some 1)]])).cols,
        c.name = "LGAIJ" → c.unit = some "1 / s") ∧
    ((postProcess 300 (Table.mk [Column.mk "LGINT" none [.f (some 1)]])).cols.map Column.vals
        = [Column.mk "LGINT" none [.f (some 1)]].map Column.vals ∧
      ∀ c ∈ (postProcess 300 (Table.mk [Column.mk "LGINT" none [.f (some 1)]])).cols,
        c.name = "LGINT" → c.unit = some "nm2 MHz") :=
  ⟨(c2_intensity_relabel 0 (Table.mk [Column.mk "LGINT" none [.f (some 1)]])).2.1 rfl,
   (c2_intensity_relabel 300 (Table.mk [Column.mk "LGINT" none [.f (some 1)]])).1,
   ((c2_intensity_relabel 300 (Table.mk [Column.mk "LGINT" none [.f (some 1)]])).2.2 (by norm_num)).2⟩

/-- Whatever code path `query_lines_async` takes, a payload it hands
back (or posts) is the base payload, possibly extended by one
`Molecules` entry. -/
theorem query_payload_shape (st : CDMSState) (a : QueryArgs)
    (luts : List (String × Nat)) (p : List (String × PVal))
    (hp : (query_lines_async st a luts).2 = .ok (.payload p) ∨
          (query_lines_async st a luts).2 = .ok (.post p)) :
    p = basePayload a ∨ ∃ v, p = basePayload a ++ [("Molecules", PVal.str v)] := by
  rcases hp with hp | hp <;>
  · simp only [query_lines_async] at hp
    repeat' split at hp
    all_goals simp_all
    all_goals (first | exact Or.inl hp.symm | exact Or.inr ⟨_, hp.symm⟩)

/-- With a missing bound, the frequency part of the payload is empty. -/
theorem freqPayload_none (minf maxf : Option ℚ) (h : minf = none ∨ maxf = none) :
    freqPayload minf maxf = [] := by
  rcases h with rfl | rfl
  · rfl
  · rcases minf with _ | mn <;> rfl

/-- The base payload never carries a `Molecules` entry. -/
theorem basePayload_lookup_molecules (a : QueryArgs) :
    (basePayload a).lookup "Molecules" = none := by
  rcases hm : a.min_frequency with _ | mn
  · simp only [basePayload, freqPayload_none _ _ (Or.inl hm), List.nil_append]
    rfl
  rcases hx : a.max_frequency with _ | mx
  · simp only [basePayload, freqPayload_none _ _ (Or.inr hx), List.nil_append]
    rfl
  by_cases h : mx < mn
  · simp only [basePayload, freqPayload, hm, hx, if_pos h]
    rfl
  · simp only [basePayload, freqPayload, hm, hx, if_neg h]
    rfl

/-- C4: in a payload returned by `query_lines_async` with
`get_query_payload=True`, a missing frequency bound leaves no `MinNu`
or `MaxNu` entry at all, and bounds that arrive (in GHz) with min
above max are swapped, so the encoded `MinNu` is at most the encoded
`MaxNu`. -/
theorem c4_frequency_bounds (st : CDMSState) (a : QueryArgs)
    (luts : List (String × Nat)) (p : List (String × PVal))
    (hp : (query_lines_async st a luts).2 = .ok (.payload p)) :
    ((a.min_frequency = none ∨ a.max_frequency = none) →
        ∀ kv ∈ p, kv.1 ≠ "MinNu" ∧ kv.1 ≠ "MaxNu") ∧
    (∀ mn mx, a.min_frequency = some mn → a.max_frequency = some mx → mx < mn →
        p.lookup "MinNu" = some (.num mx) ∧ p.lookup "MaxNu" = some (.num mn) ∧ mx ≤ mn) := by
  have hshape := query_payload_shape st a luts p (Or.inl hp)
  constructor
  · intro hnone kv hkv
    rcases hshape with rfl | ⟨v, rfl⟩ <;>
      simp only [basePayload, freqPayload_none _ _ hnone, List.nil_append] at hkv <;>
      fin_cases hkv <;> exact ⟨by simp, by simp⟩
  · intro mn mx hmn hmx hlt
    have hswap : freqPayload a.min_frequency a.max_frequency
        = [("MinNu", .num mx), ("MaxNu", .num mn)] := by
      rw [hmn, hmx]
      simp [freqPayload, hlt]
    rcases hshape with rfl | ⟨v, rfl⟩ <;>
      simp only [basePayload, hswap] <;>
      exact ⟨rfl, rfl, hlt.le⟩

/-- Query arguments of the C4 witness: no bounds, payload-only call. -/
def c4ArgsNoBounds : QueryArgs :=
  { min_frequency := none, max_frequency := none, get_query_payload := true }

/-- Query arguments of the C4 witness: swapped bounds (min 2 GHz above
max 1 GHz), payload-only call. -/
def c4ArgsSwapped : QueryArgs :=
  { min_frequency := some 2, max_frequency := some 1, get_query_payload := true }

/-- Witness for C4: with no bounds the returned payload has no
frequency keys; with min 2 GHz and max 1 GHz the encoded `MinNu` is 1
and `MaxNu` is 2. -/
theorem c4_frequency_bounds_witness :
    (∀ kv ∈ basePayload c4ArgsNoBounds ++ [("Molecules", PVal.str "All")],
        kv.1 ≠ "MinNu" ∧ kv.1 ≠ "MaxNu") ∧
    ((basePayload c4ArgsSwapped ++ [("Molecules", PVal.str "All")]).lookup "MinNu"
        = some (.num 1) ∧
      (basePayload c4ArgsSwapped ++ [("Molecules", PVal.str "All")]).lookup "MaxNu"
        = some (.num 2) ∧ (1 : ℚ) ≤ 2) :=
  ⟨(c4_frequency_bounds ⟨none⟩ c4ArgsNoBounds []
      (basePayload c4ArgsNoBounds ++ [("Molecules", PVal.str "All")]) rfl).1 (Or.inl rfl),
   (c4_frequency_bounds ⟨none⟩ c4ArgsSwapped []
      (basePayload c4ArgsSwapped ++ [("Molecules", PVal.str "All")]) rfl).2
     2 1 rfl rfl (by norm_num)⟩

/-- C9: with `parse_name_locally=True` and a nonempty match dictionary,
the payload's `Molecules` entry holds only the first matched species,
formatted as the six-digit zero-padded tag, a space, and the name; the
remaining matches (`rest`) do not influence the payload. -/
theorem c9_first_match_only (st : CDMSState) (a : QueryArgs) (mol key : String)
    (val : Nat) (rest : List (String × Nat)) (p : List (String × PVal))
    (hmol : a.molecule = some mol) (hpnl : a.parse_name_locally = true)
    (hp : (query_lines_async st a ((key, val) :: rest)).2 = .ok (.payload p)) :
    p.lookup "Molecules" = some (.str (formatTag val ++ " " ++ key)) := by
  have hq : p = basePayload a ++ [("Molecules", PVal.str (formatTag val ++ " " ++ key))] := by
    simp only [query_lines_async, hmol, hpnl, if_true] at hp
    repeat' split at hp
    all_goals simp_all
  rw [hq, List.lookup_append, basePayload_lookup_molecules, Option.none_or]
  rfl

/-- Query arguments of the C9 witness. -/
def c9Args : QueryArgs :=
  { min_frequency := none, max_frequency := none, molecule := some "H2O",
    parse_name_locally := true, get_query_payload := true }

/-- Witness for C9: with two species matched, (H2O, 18505) first, the
payload's `Molecules` entry is `018505 H2O` and the second match is
discarded. -/
theorem c9_first_match_only_witness :
    (basePayload c9Args
        ++ [("Molecules", PVal.str (formatTag 18505 ++ " " ++ "H2O"))]).lookup "Molecules"
      = some (.str (formatTag 18505 ++ " " ++ "H2O")) :=
  c9_first_match_only ⟨none⟩ c9Args "H2O" "H2O" 18505 [("H2O-17", 19505)]
    (basePayload c9Args ++ [("Molecules", PVal.str (formatTag 18505 ++ " " ++ "H2O"))])
    rfl rfl rfl

/-- C10: every `query_lines_async` call — also one that only returns the
payload, or one that raises on the molecule branch — overwrites the
instance's `_last_query_temperature` with the call's
`temperature_for_intensity`, so a subsequent `_parse_result` on that
instance interprets the intensity column with that call's
temperature. -/
theorem c10_temperature_overwrite (st : CDMSState) (a : QueryArgs)
    (luts : List (String × Nat)) (extractPre : String → String) (resp : String)
    (hz : containsSub zeroLinesMsg resp = false) :
    (query_lines_async st a luts).1.last_query_temperature
        = some a.temperature_for_intensity ∧
    _parse_result extractPre (query_lines_async st a luts).1 resp
      = .ok (postProcess a.temperature_for_intensity
              (tableOf (parse_table (extractPre resp)))) := by
  have hstate : (query_lines_async st a luts).1.last_query_temperature
      = some a.temperature_for_intensity := by
    simp only [query_lines_async]
    repeat' split
    all_goals rfl
  refine ⟨hstate, ?_⟩
  have hcond : ¬ (containsSub zeroLinesMsg resp = true) := by simp [hz]
  simp only [_parse_result]
  rw [if_neg hcond, hstate]

/-- Query arguments of the C10 witness: a payload-only call at the
default temperature 300. -/
def c10Args : QueryArgs :=
  { min_frequency := none, max_frequency := none, get_query_payload := true }

/-- Witness for C10: after a payload-only call at temperature 300, the
instance temperature is 300 and a parse on the same instance
post-processes with 300. -/
theorem c10_temperature_overwrite_witness :
    (query_lines_async ⟨none⟩ c10Args []).1.last_query_temperature = some 300 ∧
    _parse_result id (query_lines_async ⟨none⟩ c10Args []).1 ""
      = .ok (postProcess 300 (tableOf (parse_table (id "")))) :=
  c10_temperature_overwrite ⟨none⟩ c10Args [] id "" rfl

/-- C8: `get_species_table` rewrites each of the eleven `lg(Q)` columns
entry-wise through `tryfloat`, which replaces every entry that fails to
parse as a float by NaN instead of raising; the processing is total (a
table is always returned). -/
theorem c8_species_nan (cols : List (String × List String)) (k : String)
    (vs : List String) (hk : k ∈ lgQKeys) (hmem : (k, vs) ∈ cols) :
    (k, SpecCol.num (vs.map tryfloat)) ∈ get_species_table cols ∧
    lgQKeys.length = 11 ∧
    ∀ s : String, parseFloat? s = none → tryfloat s = .nan := by
  refine ⟨?_, rfl, fun s hs => by simp [tryfloat, hs]⟩
  have := List.mem_map_of_mem (fun c : String × List String =>
    if c.1 ∈ lgQKeys then (c.1, SpecCol.num (c.2.map tryfloat)) else (c.1, SpecCol.raw c.2)) hmem
  simpa [get_species_table, if_pos hk] using this

/-- Witness for C8: a catalog file whose `lg(Q(300))` column holds the
unparseable entry `---` yields a table with that entry mapped through
`tryfloat` (to NaN) rather than an error. -/
theorem c8_species_nan_witness :
    ("lg(Q(300))", SpecCol.num (["---", "1.5"].map tryfloat))
        ∈ get_species_table [("lg(Q(300))", ["---", "1.5"])] ∧
    lgQKeys.length = 11 ∧
    ∀ s : String, parseFloat? s = none → tryfloat s = .nan :=
  c8_species_nan [("lg(Q(300))", ["---", "1.5"])] "lg(Q(300))" ["---", "1.5"]
    (by decide) (by decide)

end CDMS
